import Mathlib

/-!
Verification of the frame-processing core of the FLAYRE backend
(`backend/app/services/frame_processor.py`): capture-session lifecycle
(`FrameProcessorService`, `CaptureSession`), overlap estimation
(`FrameStitcher.find_overlap`), canvas composition (`FrameStitcher.stitch_frames`
and `FrameStitcher._stitch_large`), and the tile-pyramid generator
(`TileGenerator.generate_tiles`).

Modelling conventions:
* A pixel value is one colour channel, a natural number (the source arrays are
  `uint8` BGR; every operation we model acts channel-wise, so one channel
  represents all three).
* Image buffers are total functions `row → col → value` together with their
  dimensions, mirroring `numpy` arrays; reads outside the stored rectangle
  never occur in the modelled code paths.
* Python float expressions on integers (`int(h * 0.8)`, `h * 0.5`,
  `alpha = a / b`, `int(np.ceil(w / 256))`, `np.ceil(np.log2(m / 256))`)
  are modelled by exact rational/integer arithmetic with floor, which agrees
  with IEEE double evaluation on the integer ranges the service handles.
* Calls into OpenCV (`ORB.detectAndCompute`, `BFMatcher.match`) are external
  native code; they are abstracted as an oracle argument where needed.
-/

/-- One image buffer: height, width, and the pixel grid (row, col). Models a
`numpy` array of shape `(h, w, 3)` channel-wise. -/
structure Img where
  h : ℕ
  w : ℕ
  pix : ℕ → ℕ → ℕ

/-- An unbounded pixel canvas (row, col); models the mutable output arrays.
Cells never written hold 0, matching `np.zeros`. -/
abbrev Canvas : Type := ℕ → ℕ → ℕ

/-- The all-zero canvas, `np.zeros((H, W, 3), dtype=np.uint8)`. -/
def zeroCanvas : Canvas := fun _ _ => 0

/-! ## Overlap Estimator: `FrameStitcher.find_overlap` (lines 80-130) -/

/-- The heuristic fallback offset `int(height1 * 0.8)` (lines 104, 111, 126):
assume 20% overlap. `int` truncates a nonnegative float, so this is
`⌊4·h1/5⌋`. -/
def fallbackOffset (height1 : ℕ) : ℤ := ((4 * height1) / 5 : ℕ)

/-- Embeds `FrameStitcher.find_overlap` (lines 80-130). The cv2 feature
detection/matching pipeline (lines 89-122) is external native code; it is
abstracted as the oracle `est?`: `none` is the insufficient-features path
(fewer than 2 descriptors on either side, or fewer than 4 matches — lines
102-104 and 110-111), and `some est` carries the raw
`stitch_y = height1 - overlap_region + int(median displacement)` of line 122,
an arbitrary integer. Lines 124-130 — the only logic left in the source —
sanity-check the raw value: below `height1 * 0.5` it is replaced by the 80%
fallback, above `height1` it is clamped to `height1`. -/
def find_overlap (height1 : ℕ) (est? : Option ℤ) : ℤ :=
  match est? with
  | none => fallbackOffset height1
  | some est =>
      if 2 * est < (height1 : ℤ) then fallbackOffset height1
      else if (height1 : ℤ) < est then (height1 : ℤ)
      else est

/-! ## Stitch plan and composed dimensions: `FrameStitcher.stitch_frames`
(lines 132-212).  The per-pair calls to `find_overlap` consume one oracle
entry per consecutive pair (`none` when the list runs out). -/

/-- The loop of lines 155-166 building `stitch_points` for frames after the
first: each new point is the previous point plus the overlap offset of the
previous image against the new one. -/
def stitchPointsGo (prev : Img) (rest : List Img) (os : List (Option ℤ))
    (last : ℤ) : List ℤ :=
  match rest with
  | [] => []
  | img :: rest' =>
      let p := last + find_overlap prev.h (os.headD none)
      p :: stitchPointsGo img rest' os.tail p

/-- `stitch_points` for a full frame list: `[0]` seeded at line 150, then the
loop (lines 155-166). Empty for an empty frame list (line 137 raises). -/
def stitchPoints (imgs : List Img) (os : List (Option ℤ)) : List ℤ :=
  match imgs with
  | [] => []
  | f :: rest => 0 :: stitchPointsGo f rest os 0

/-- The running `current_height` of lines 152-161: after each frame it is the
frame's stitch point plus its height; seeded with the first frame's height. -/
def stitchHeightGo (prev : Img) (rest : List Img) (os : List (Option ℤ))
    (last curH : ℤ) : ℤ :=
  match rest with
  | [] => curH
  | img :: rest' =>
      let p := last + find_overlap prev.h (os.headD none)
      stitchHeightGo img rest' os.tail p (p + img.h)

/-- Canvas width of line 169: `max(img.shape[1] for img in images)`. -/
def maxWidth (imgs : List Img) : ℕ :=
  match imgs with
  | [] => 0
  | f :: rest => rest.foldl (fun a i => max a i.w) f.w

/-- Dimensions `(width, total_height)` of the composed image produced by
`stitch_frames`: `none` for an empty frame list (line 137-138 raises
`ValueError`); a single frame is copied verbatim (lines 140-144); otherwise
lines 149-170 compute the canvas size. -/
def composedDims (imgs : List Img) (os : List (Option ℤ)) : Option (ℕ × ℤ) :=
  match imgs with
  | [] => none
  | [f] => some (f.w, (f.h : ℤ))
  | f :: g :: rest =>
      some (maxWidth (f :: g :: rest), stitchHeightGo f (g :: rest) os 0 (f.h : ℤ))

/-! ## Claim C5 theorems -/

/-- Claim C5 (counterexample): the claim says any feature-based estimate
outside `[0.5·h1, h1]` is replaced by the 80%-height fallback `int(0.8·h1)`.
For `height1 = 10` and a raw estimate of `12` (above the band), the code
clamps to `10` (line 128) instead of returning the fallback `8`. -/
theorem find_overlap_above_band_not_fallback :
    fallbackOffset 10 = 8 ∧ find_overlap 10 (some 12) = 10 ∧
      find_overlap 10 (some 12) ≠ fallbackOffset 10 := by
  refine ⟨rfl, rfl, ?_⟩
  decide

/-- Claim C5 (amended): for `height1 ≥ 2` the final offset lies in
`[0.5·height1, height1]`; a raw estimate below `0.5·height1` (or the
no-features path) yields the fallback `int(0.8·height1)`, while a raw estimate
above `height1` is clamped to `height1` itself, not replaced by the fallback.
(For `height1 = 1` the fallback `int(0.8) = 0` falls below the band.) -/
theorem find_overlap_band (height1 : ℕ) (est? : Option ℤ) (h2 : 2 ≤ height1) :
    ((height1 : ℤ) ≤ 2 * find_overlap height1 est? ∧
      find_overlap height1 est? ≤ height1) ∧
    (∀ est : ℤ, 2 * est < (height1 : ℤ) →
      find_overlap height1 (some est) = fallbackOffset height1) ∧
    (∀ est : ℤ, (height1 : ℤ) < est →
      find_overlap height1 (some est) = (height1 : ℤ)) := by
  have hfb : (height1 : ℤ) ≤ 2 * fallbackOffset height1 ∧
      fallbackOffset height1 ≤ height1 := by
    unfold fallbackOffset
    constructor <;> omega
  refine ⟨?_, ?_, ?_⟩
  · unfold find_overlap
    match est? with
    | none => exact hfb
    | some est =>
      by_cases hlt : 2 * est < (height1 : ℤ)
      · simp only [hlt, if_true]
        exact hfb
      · simp only [hlt, if_false]
        by_cases hgt : (height1 : ℤ) < est
        · simp only [hgt, if_true]
          omega
        · simp only [hgt, if_false]
          omega
  · intro est hlt
    unfold find_overlap
    simp only [hlt, if_true]
  · intro est hgt
    unfold find_overlap
    have : ¬ (2 * est < (height1 : ℤ)) := by omega
    simp only [this, hgt, if_false, if_true]

/-- Claim C5 (witness): the amended theorem applied at `height1 = 10` with a
raw estimate of `7`. -/
theorem find_overlap_band_witness :
    (2 ≤ 10) ∧
    (((10 : ℕ) : ℤ) ≤ 2 * find_overlap 10 (some 7) ∧
      find_overlap 10 (some 7) ≤ (10 : ℕ)) := by
  have h := find_overlap_band 10 (some 7) (by norm_num)
  exact ⟨by norm_num, h.1⟩

/-! ## Claims C6, C7: stitch-plan and composed-dimension invariants -/

/-- Every offset `find_overlap` returns is nonnegative: both fallbacks and the
clamped band are nonnegative, and an estimate that survives the sanity check
satisfies `2·est ≥ height1 ≥ 0`. -/
theorem find_overlap_nonneg (height1 : ℕ) (est? : Option ℤ) :
    0 ≤ find_overlap height1 est? := by
  unfold find_overlap fallbackOffset
  match est? with
  | none => positivity
  | some est =>
    by_cases hlt : 2 * est < (height1 : ℤ)
    · simp only [hlt, if_true]; positivity
    · simp only [hlt, if_false]
      by_cases hgt : (height1 : ℤ) < est
      · simp only [hgt, if_true]; positivity
      · simp only [hgt, if_false]; omega

/-- The sequence of stitch points built by the loop starting from `last` forms
a non-decreasing chain headed by `last`. -/
theorem stitchPointsGo_chain (rest : List Img) :
    ∀ (prev : Img) (os : List (Option ℤ)) (last : ℤ),
      List.Chain' (· ≤ ·) (last :: stitchPointsGo prev rest os last) := by
  induction rest with
  | nil => intro prev os last; simp [stitchPointsGo]
  | cons img rest' ih =>
      intro prev os last
      rw [stitchPointsGo]
      rw [List.chain'_cons]
      refine ⟨?_, ih img os.tail _⟩
      have := find_overlap_nonneg prev.h (os.headD none)
      omega

/-- Claim C7: for every non-empty session, the stitch plan starts at
`y_start_0 = 0` and is monotonically non-decreasing across the ordered frame
sequence. -/
theorem stitch_plan_monotone (imgs : List Img) (os : List (Option ℤ))
    (hne : imgs ≠ []) :
    (stitchPoints imgs os).headI = 0 ∧
      List.Chain' (· ≤ ·) (stitchPoints imgs os) := by
  match imgs with
  | [] => exact absurd rfl hne
  | f :: rest =>
      rw [stitchPoints]
      exact ⟨rfl, stitchPointsGo_chain rest f os 0⟩

/-- Claim C7 (witness): a two-frame session with a concrete oracle. -/
theorem stitch_plan_monotone_witness :
    ([⟨10, 5, fun _ _ => 0⟩, ⟨10, 5, fun _ _ => 0⟩] : List Img) ≠ [] ∧
    ((stitchPoints [⟨10, 5, fun _ _ => 0⟩, ⟨10, 5, fun _ _ => 0⟩]
        [some 7]).headI = 0 ∧
      List.Chain' (· ≤ ·)
        (stitchPoints [⟨10, 5, fun _ _ => 0⟩, ⟨10, 5, fun _ _ => 0⟩]
          [some 7])) :=
  ⟨by simp,
    stitch_plan_monotone [⟨10, 5, fun _ _ => 0⟩, ⟨10, 5, fun _ _ => 0⟩]
      [some 7] (by simp)⟩

/-- Helper: the accumulator is a lower bound of the width fold of line 169. -/
theorem le_foldl_maxWidth (l : List Img) :
    ∀ a : ℕ, a ≤ l.foldl (fun a i => max a i.w) a := by
  induction l with
  | nil => intro a; simp
  | cons i l ih =>
      intro a
      calc a ≤ max a i.w := le_max_left _ _
        _ ≤ l.foldl (fun a i => max a i.w) (max a i.w) := ih _
        _ = (i :: l).foldl (fun a i => max a i.w) a := by simp

/-- Helper: every element's width is bounded by the width fold. -/
theorem mem_le_foldl_maxWidth (l : List Img) :
    ∀ (a : ℕ) (i : Img), i ∈ l → i.w ≤ l.foldl (fun a i => max a i.w) a := by
  induction l with
  | nil => intro a i hi; simp at hi
  | cons j l ih =>
      intro a i hi
      rcases List.mem_cons.mp hi with h | h
      · subst h
        calc i.w ≤ max a i.w := le_max_right _ _
          _ ≤ l.foldl (fun a i => max a i.w) (max a i.w) := le_foldl_maxWidth l _
          _ = (i :: l).foldl (fun a i => max a i.w) a := by simp
      · simpa using ih (max a j.w) i h

/-- Helper: the width fold is attained either by the accumulator or by some
element of the list. -/
theorem foldl_maxWidth_mem (l : List Img) :
    ∀ a : ℕ, l.foldl (fun a i => max a i.w) a = a ∨
      l.foldl (fun a i => max a i.w) a ∈ l.map Img.w := by
  induction l with
  | nil => intro a; simp
  | cons j l ih =>
      intro a
      rcases ih (max a j.w) with h | h
      · rcases max_choice a j.w with hm | hm
        · left; simpa [hm] using h
        · right
          simp only [List.map_cons, List.mem_cons]
          left
          simpa [hm] using h
      · right
        simp only [List.map_cons, List.mem_cons]
        right
        simpa using h

/-- Helper: `getLastD` of a non-empty list ignores its default. -/
theorem getLastD_congr {α : Type _} (l : List α) (a b : α) (h : l ≠ []) :
    l.getLastD a = l.getLastD b := by
  match l with
  | [] => exact absurd rfl h
  | x :: xs => rw [List.getLastD_cons, List.getLastD_cons]

/-- Helper: `stitchHeightGo` computes exactly the last stitch point plus the
last frame's height, for a non-empty remainder. -/
theorem stitchHeightGo_eq (rest : List Img) :
    ∀ (prev : Img) (os : List (Option ℤ)) (last curH : ℤ), rest ≠ [] →
      stitchHeightGo prev rest os last curH =
        (stitchPointsGo prev rest os last).getLastD 0 +
          ((rest.getLastD ⟨0, 0, fun _ _ => 0⟩).h : ℤ) := by
  induction rest with
  | nil => intro prev os last curH hne; exact absurd rfl hne
  | cons img rest' ih =>
      intro prev os last curH _
      rw [stitchHeightGo, stitchPointsGo]
      match rest' with
      | [] => simp [stitchHeightGo, stitchPointsGo, List.getLastD_cons]
      | g :: tl =>
          rw [ih img os.tail _ _ (List.cons_ne_nil _ _)]
          have h1 : (stitchPointsGo img (g :: tl) os.tail
              (last + find_overlap prev.h (os.headD none))) ≠ [] := by
            rw [stitchPointsGo]; exact List.cons_ne_nil _ _
          simp only [List.getLastD_cons]
          rw [getLastD_congr _ (0 : ℤ)
            (last + find_overlap prev.h (os.headD none)) h1]

/-- Claim C6: for every non-empty session, the composed image's width equals
the maximum of the frames' widths (an upper bound that is attained), and its
height equals exactly the last stitch point plus the last frame's height. -/
theorem composed_dims_spec (imgs : List Img) (os : List (Option ℤ))
    (W : ℕ) (Ht : ℤ) (hdims : composedDims imgs os = some (W, Ht)) :
    (∀ i ∈ imgs, i.w ≤ W) ∧ W ∈ imgs.map Img.w ∧
      Ht = (stitchPoints imgs os).getLastD 0 +
        ((imgs.getLastD ⟨0, 0, fun _ _ => 0⟩).h : ℤ) := by
  match imgs with
  | [] => simp [composedDims] at hdims
  | [f] =>
      rw [composedDims] at hdims
      simp only [Option.some.injEq, Prod.mk.injEq] at hdims
      refine ⟨?_, ?_, ?_⟩
      · intro i hi
        simp only [List.mem_singleton] at hi
        subst hi; omega
      · simp [← hdims.1]
      · rw [← hdims.2]
        simp [stitchPoints, stitchPointsGo, List.getLastD_cons]
  | f :: g :: rest =>
      rw [composedDims] at hdims
      simp only [Option.some.injEq, Prod.mk.injEq] at hdims
      refine ⟨?_, ?_, ?_⟩
      · intro i hi
        rw [← hdims.1]
        rcases List.mem_cons.mp hi with h | h
        · subst h; exact le_foldl_maxWidth _ _
        · exact mem_le_foldl_maxWidth _ _ _ h
      · rw [← hdims.1]
        unfold maxWidth
        rcases foldl_maxWidth_mem (g :: rest) f.w with h | h
        · simp [h]
        · simp only [List.map_cons, List.mem_cons]
          rcases List.mem_cons.mp h with h' | h'
          · right; left; exact h'
          · right; right; simpa using h'
      · rw [← hdims.2, stitchHeightGo_eq (g :: rest) f os 0 (f.h : ℤ)
          (List.cons_ne_nil _ _)]
        rw [stitchPoints]
        simp only [List.getLastD_cons]

/-- Claim C6 (witness): a concrete two-frame session. -/
theorem composed_dims_spec_witness :
    composedDims [⟨10, 5, fun _ _ => 1⟩, ⟨12, 7, fun _ _ => 2⟩] [some 8] =
      some (7, 20) ∧
    ((∀ i ∈ [(⟨10, 5, fun _ _ => 1⟩ : Img), ⟨12, 7, fun _ _ => 2⟩], i.w ≤ 7) ∧
      (7 : ℕ) ∈ [(⟨10, 5, fun _ _ => 1⟩ : Img), ⟨12, 7, fun _ _ => 2⟩].map Img.w ∧
      (20 : ℤ) = (stitchPoints [⟨10, 5, fun _ _ => 1⟩, ⟨12, 7, fun _ _ => 2⟩]
          [some 8]).getLastD 0 +
        (([(⟨10, 5, fun _ _ => 1⟩ : Img),
            ⟨12, 7, fun _ _ => 2⟩].getLastD ⟨0, 0, fun _ _ => 0⟩).h : ℤ)) :=
  ⟨rfl, composed_dims_spec [⟨10, 5, fun _ _ => 1⟩, ⟨12, 7, fun _ _ => 2⟩]
    [some 8] 7 20 rfl⟩

/-! ## Canvas Composer: non-chunked path of `stitch_frames` (lines 178-209)
and chunked path `_stitch_large` (lines 214-251).

Both are modelled as functions of the image list, its stitch points, and the
total canvas height, exactly the data `stitch_frames` hands to the placement
code after the planning loop. -/

/-- One blended channel value of lines 196-199: with `alpha = num/den` the
source computes `canvas*(1-alpha) + img*alpha` in float64 and truncates with
`astype(np.uint8)`; in exact arithmetic that is `⌊(c*(den-num) + p*num)/den⌋`.
(IEEE rounding of `alpha` can perturb the floor at exact-integer boundaries;
at `num = 0` or `num = den` both evaluations agree exactly.) -/
def blendPix (c p num den : ℕ) : ℕ := (c * (den - num) + p * num) / den

/-- Placement of one frame by the loops of lines 181-206 on the full canvas:
rows `[y_start, min(prev_end, y_end))` are cross-faded against the existing
canvas (weight `(y - y_start)/(prev_end - y_start)` for the new frame, lines
187-199), rows `[max(prev_end, y_start), y_end)` are copied verbatim (lines
202-206), columns `≥ img.w` are untouched. `prevEnd` is
`stitch_points[i-1] + images[i-1].shape[0]`, absent for the first frame. -/
def placeOne (c : Canvas) (img : Img) (yStart : ℕ) (prevEnd : Option ℕ)
    (H : ℕ) : Canvas :=
  fun y x =>
    if x < img.w ∧ yStart ≤ y ∧ y < min (yStart + img.h) H then
      match prevEnd with
      | some pe =>
          if y < pe then
            blendPix (c y x) (img.pix (y - yStart) x) (y - yStart) (pe - yStart)
          else img.pix (y - yStart) x
      | none => img.pix (y - yStart) x
    else c y x

/-- The enumeration loop of line 181, threading the previous frame's end. -/
def composeGo (c : Canvas) (ip : List (Img × ℕ)) (prevEnd : Option ℕ)
    (H : ℕ) : Canvas :=
  match ip with
  | [] => c
  | (img, ys) :: rest => composeGo (placeOne c img ys prevEnd H) rest (some (ys + img.h)) H

/-- The non-chunked composition (lines 178-206): place every (image, stitch
point) pair onto a zeroed `H`-row canvas with cross-fade blending. -/
def composeCanvas (ip : List (Img × ℕ)) (H : ℕ) : Canvas :=
  composeGo zeroCanvas ip none H

/-- Chunk band height of `_stitch_large` (line 223). -/
def CHUNK_HEIGHT : ℕ := 10000

/-- The large-canvas threshold of line 175. -/
def LARGE_THRESHOLD : ℕ := 30000

/-- The per-image copy of lines 231-243 into one chunk spanning global rows
`[cs, ce)`: `src_start = max(0, cs - ys)`, `src_end = min(h, ce - ys)`,
`dst_start = max(0, ys - cs)`, `dst_end = dst_start + (src_end - src_start)`
(natural subtraction models the `max(0, ·)`), and the slice assignment
overwrites columns `[0, img.w)` verbatim — no blending. -/
def placeChunkSlice (c : Canvas) (img : Img) (ys cs ce : ℕ) : Canvas :=
  fun ly x =>
    if ys + img.h ≤ cs ∨ ce ≤ ys then c ly x
    else if (ys - cs) ≤ ly ∧
        ly < (ys - cs) + (min img.h (ce - ys) - (cs - ys)) ∧ x < img.w then
      img.pix ((cs - ys) + (ly - (ys - cs))) x
    else c ly x

/-- The inner image loop of line 231 over one chunk. -/
def fillChunk (c : Canvas) (ip : List (Img × ℕ)) (cs ce : ℕ) : Canvas :=
  match ip with
  | [] => c
  | (img, ys) :: rest => fillChunk (placeChunkSlice c img ys cs ce) rest cs ce

/-- The chunk list of lines 226-245: one zero-initialised band per
`chunk_start in range(0, height, chunk_height)`, paired with its height. -/
def chunkList (ip : List (Img × ℕ)) (H : ℕ) : List (ℕ × Canvas) :=
  (List.range' 0 ((H + CHUNK_HEIGHT - 1) / CHUNK_HEIGHT) CHUNK_HEIGHT).map
    (fun cs => (min (cs + CHUNK_HEIGHT) H - cs,
      fillChunk zeroCanvas ip cs (min (cs + CHUNK_HEIGHT) H)))

/-- `np.vstack` (line 248): global row `y` reads the first chunk if `y` is
below its height, else recurses with the height subtracted. -/
def vstackAt : List (ℕ × Canvas) → Canvas
  | [] => zeroCanvas
  | (hc, c) :: rest => fun y x => if y < hc then c y x else vstackAt rest (y - hc) x

/-- `FrameStitcher._stitch_large` (lines 214-251) as a canvas. -/
def stitchLargeCanvas (ip : List (Img × ℕ)) (H : ℕ) : Canvas :=
  vstackAt (chunkList ip H)

/-- The dispatch of line 175: heights above the threshold take the chunked
path, the rest the full-canvas blended path. -/
def stitchOutput (ip : List (Img × ℕ)) (H : ℕ) : Canvas :=
  if LARGE_THRESHOLD < H then stitchLargeCanvas ip H else composeCanvas ip H

/-- Comparator for the C1 refinement statement, following the spec's words
for plain placement without cross-fade: each frame is copied verbatim into
place in list order, later frames overwriting earlier ones where they
overlap. -/
def owPlace (c : Canvas) (img : Img) (ys : ℕ) : Canvas :=
  fun y x =>
    if ys ≤ y ∧ y < ys + img.h ∧ x < img.w then img.pix (y - ys) x else c y x

/-- Verbatim overwrite composition over a whole frame list. -/
def overwriteCanvas (ip : List (Img × ℕ)) : Canvas :=
  ip.foldl (fun c p => owPlace c p.1 p.2) zeroCanvas

/-- The pixel contributed at `(y, x)` by the last frame in list order that
covers that position, if any. -/
def lastCover : List (Img × ℕ) → ℕ → ℕ → Option ℕ
  | [], _, _ => none
  | (img, ys) :: rest, y, x =>
      match lastCover rest y x with
      | some v => some v
      | none =>
          if ys ≤ y ∧ y < ys + img.h ∧ x < img.w then some (img.pix (y - ys) x)
          else none

/-- Helper: the overwrite fold reads back the last covering frame's pixel. -/
theorem foldl_owPlace_eq (ip : List (Img × ℕ)) :
    ∀ (c : Canvas) (y x : ℕ),
      (ip.foldl (fun c p => owPlace c p.1 p.2) c) y x =
        (lastCover ip y x).getD (c y x) := by
  induction ip with
  | nil => intro c y x; simp [lastCover]
  | cons p rest ih =>
      obtain ⟨img, ys⟩ := p
      intro c y x
      rw [List.foldl_cons, ih]
      simp only [lastCover]
      cases hrc : lastCover rest y x with
      | some v => simp [hrc]
      | none =>
          simp only [hrc, Option.getD_none]
          unfold owPlace
          by_cases hcnd : ys ≤ y ∧ y < ys + img.h ∧ x < img.w
          · rw [if_pos hcnd, if_pos hcnd, Option.getD_some]
          · rw [if_neg hcnd, if_neg hcnd, Option.getD_none]

/-- Helper: within a chunk's row span, filling a chunk reads back the last
covering frame's pixel of the corresponding global row. -/
theorem fillChunk_eq (ip : List (Img × ℕ)) :
    ∀ (c : Canvas) (cs ce ly x : ℕ), cs + ly < ce →
      fillChunk c ip cs ce ly x = (lastCover ip (cs + ly) x).getD (c ly x) := by
  induction ip with
  | nil => intro c cs ce ly x h; simp [fillChunk, lastCover]
  | cons p rest ih =>
      obtain ⟨img, ys⟩ := p
      intro c cs ce ly x h
      rw [fillChunk, ih _ cs ce ly x h]
      simp only [lastCover]
      cases hrc : lastCover rest (cs + ly) x with
      | some v => simp [hrc]
      | none =>
          simp only [hrc, Option.getD_none]
          unfold placeChunkSlice
          by_cases hcov : ys ≤ cs + ly ∧ cs + ly < ys + img.h ∧ x < img.w
          · rw [if_pos hcov, Option.getD_some]
            have hskip : ¬ (ys + img.h ≤ cs ∨ ce ≤ ys) := by omega
            rw [if_neg hskip]
            have hw : (ys - cs) ≤ ly ∧
                ly < (ys - cs) + (min img.h (ce - ys) - (cs - ys)) ∧
                x < img.w := by
              refine ⟨by omega, by omega, hcov.2.2⟩
            rw [if_pos hw]
            congr 1
            omega
          · rw [if_neg hcov, Option.getD_none]
            by_cases hskip : ys + img.h ≤ cs ∨ ce ≤ ys
            · rw [if_pos hskip]
            · rw [if_neg hskip]
              have hw : ¬ ((ys - cs) ≤ ly ∧
                  ly < (ys - cs) + (min img.h (ce - ys) - (cs - ys)) ∧
                  x < img.w) := by omega
              rw [if_neg hw]

/-- Helper: reading the stacked chunks built from `range' s n CHUNK_HEIGHT`
at local row `y` gives the last covering frame's pixel of global row `s + y`,
provided the chunks cover up to `H` and the row is in range. -/
theorem vstackAt_chunks_eq (ip : List (Img × ℕ)) (H : ℕ) :
    ∀ (n s y x : ℕ), s + y < H → H ≤ s + n * CHUNK_HEIGHT →
      vstackAt ((List.range' s n CHUNK_HEIGHT).map
        (fun cs => (min (cs + CHUNK_HEIGHT) H - cs,
          fillChunk zeroCanvas ip cs (min (cs + CHUNK_HEIGHT) H)))) y x =
      (lastCover ip (s + y) x).getD 0 := by
  intro n
  induction n with
  | zero => intro s y x h1 h2; omega
  | succ n ih =>
      intro s y x h1 h2
      rw [List.range'_succ, List.map_cons]
      simp only [vstackAt]
      by_cases hy : y < min (s + CHUNK_HEIGHT) H - s
      · rw [if_pos hy]
        rw [fillChunk_eq ip zeroCanvas s (min (s + CHUNK_HEIGHT) H) y x (by omega)]
        rfl
      · rw [if_neg hy]
        have hch : min (s + CHUNK_HEIGHT) H - s = CHUNK_HEIGHT := by omega
        rw [hch]
        have hrec := ih (s + CHUNK_HEIGHT) (y - CHUNK_HEIGHT) x (by omega)
          (by simp only [CHUNK_HEIGHT] at *; omega)
        have harg : s + CHUNK_HEIGHT + (y - CHUNK_HEIGHT) = s + y := by omega
        rw [hrec, harg]

/-- Claim C1 (counterexample): a three-frame synthetic session with stitch
points `[0, 2, 6]` and composed height `30001 > 30000` (so `stitch_frames`
takes the `_stitch_large` path). At row 2, column 0 — the top of the overlap
band between frames 1 and 2 — the blended non-chunked path keeps frame 1's
pixel (cross-fade weight 0 for frame 2, and `alpha = 0` is exact in float64),
while the chunked path writes frame 2's pixel verbatim: 10 ≠ 200. -/
theorem stitch_large_not_blended :
    LARGE_THRESHOLD < 30001 ∧
    stitchOutput
        [(⟨4, 1, fun _ _ => 10⟩, 0), (⟨4, 1, fun _ _ => 200⟩, 2),
          (⟨29995, 1, fun _ _ => 30⟩, 6)] 30001 2 0 = 200 ∧
    composeCanvas
        [(⟨4, 1, fun _ _ => 10⟩, 0), (⟨4, 1, fun _ _ => 200⟩, 2),
          (⟨29995, 1, fun _ _ => 30⟩, 6)] 30001 2 0 = 10 ∧
    stitchOutput
        [(⟨4, 1, fun _ _ => 10⟩, 0), (⟨4, 1, fun _ _ => 200⟩, 2),
          (⟨29995, 1, fun _ _ => 30⟩, 6)] 30001 2 0 ≠
      composeCanvas
        [(⟨4, 1, fun _ _ => 10⟩, 0), (⟨4, 1, fun _ _ => 200⟩, 2),
          (⟨29995, 1, fun _ _ => 30⟩, 6)] 30001 2 0 := by
  refine ⟨by decide, by decide, by decide, by decide⟩

/-- Claim C1 (amended): on every in-range pixel, the chunked composer
`_stitch_large` is pixel-identical to the full-canvas *verbatim* placement in
which each frame overwrites earlier ones where they overlap — i.e. chunking
itself is lossless — but it is not the blended non-chunked path: inside
overlap bands the cross-fade is replaced by the later frame's pixels. -/
theorem stitch_large_eq_overwrite (ip : List (Img × ℕ)) (H y x : ℕ)
    (hy : y < H) :
    stitchLargeCanvas ip H y x = overwriteCanvas ip y x := by
  rw [overwriteCanvas, foldl_owPlace_eq, stitchLargeCanvas, chunkList]
  have h := vstackAt_chunks_eq ip H ((H + CHUNK_HEIGHT - 1) / CHUNK_HEIGHT)
    0 y x (by omega) (by simp only [CHUNK_HEIGHT]; omega)
  simp only [Nat.zero_add] at h
  rw [h]
  rfl

/-- Claim C1 (witness): the amended theorem applied at the counterexample
session, row 5 (inside the second frame's verbatim region). -/
theorem stitch_large_eq_overwrite_witness :
    (5 < 30001) ∧
    stitchLargeCanvas
        [(⟨4, 1, fun _ _ => 10⟩, 0), (⟨4, 1, fun _ _ => 200⟩, 2),
          (⟨29995, 1, fun _ _ => 30⟩, 6)] 30001 5 0 =
      overwriteCanvas
        [(⟨4, 1, fun _ _ => 10⟩, 0), (⟨4, 1, fun _ _ => 200⟩, 2),
          (⟨29995, 1, fun _ _ => 30⟩, 6)] 5 0 :=
  ⟨by omega,
    stitch_large_eq_overwrite
      [(⟨4, 1, fun _ _ => 10⟩, 0), (⟨4, 1, fun _ _ => 200⟩, 2),
        (⟨29995, 1, fun _ _ => 30⟩, 6)] 30001 5 0 (by omega)⟩

/-! ## Session Orchestrator: `CaptureSession` (lines 31-64) and
`FrameProcessorService` (lines 350-419).

Session ids are modelled as naturals with a freshness counter `nextId`
standing in for `uuid.uuid4()` (line 360): a freshly generated id never
collides with a live one. Frame image bytes are uninterpreted naturals (the base64
decode + file write of lines 47-51 is a byte-for-byte passthrough), and a
stored file is keyed by its frame number, because the path
`frame_{frame_number:04d}.png` (line 48) is determined by the frame number
within the session directory. Metadata mappings are uninterpreted naturals
(`0` = the initial empty dict). -/

/-- Payload of one `add_frame` call (line 69 interface; `.get` defaults of
lines 57-59 are the caller's values here). -/
structure FrameData where
  frame_number : ℕ
  image_base64 : ℕ
  scroll_position : ℕ
  viewport_height : ℕ
  timestamp : ℕ
deriving DecidableEq

/-- One record of `CaptureSession.frames` (lines 54-60). -/
structure FrameInfo where
  frame_number : ℕ
  path : ℕ
  scroll_position : ℕ
  viewport_height : ℕ
  timestamp : ℕ
deriving DecidableEq

/-- `CaptureSession` (lines 31-39): the metadata list `frames`, the session
directory's files (`files`, keyed by frame number), and the metadata dict. -/
structure CaptureSession where
  session_id : ℕ
  frames : List FrameInfo
  files : List (ℕ × ℕ)
  metadata : ℕ
deriving DecidableEq

/-- Association-list lookup (dict access / `in` test). -/
def assocLookup {α : Type} : List (ℕ × α) → ℕ → Option α
  | [], _ => none
  | (k, v) :: rest, k' => if k = k' then some v else assocLookup rest k'

/-- Association-list write: overwrite the existing key or append (dict
assignment; also the file-system overwrite semantics of line 50). -/
def assocSet {α : Type} : List (ℕ × α) → ℕ → α → List (ℕ × α)
  | [], k, v => [(k, v)]
  | (k0, v0) :: rest, k, v =>
      if k0 = k then (k, v) :: rest else (k0, v0) :: assocSet rest k v

/-- Association-list in-place update of an existing key. -/
def assocUpdate {α : Type} : List (ℕ × α) → ℕ → (α → α) → List (ℕ × α)
  | [], _, _ => []
  | (k0, v0) :: rest, k, f =>
      if k0 = k then (k0, f v0) :: rest else (k0, v0) :: assocUpdate rest k f

/-- Association-list removal (`del`). -/
def assocRemove {α : Type} : List (ℕ × α) → ℕ → List (ℕ × α)
  | [], _ => []
  | (k0, v0) :: rest, k => if k0 = k then rest else (k0, v0) :: assocRemove rest k

/-- `CaptureSession.__init__` (lines 34-39): empty frame list, empty session
directory, empty metadata. -/
def newCaptureSession (sid : ℕ) : CaptureSession := ⟨sid, [], [], 0⟩

/-- `CaptureSession.add_frame` (lines 41-64): write the decoded image to
`frame_{frame_number:04d}.png` — overwriting any file a previous submission
of the same number produced — then unconditionally append a metadata record
to `frames` (line 61; `path` is the frame-number file key). -/
def CaptureSession.add_frame (s : CaptureSession) (fd : FrameData) :
    CaptureSession :=
  { s with
    files := assocSet s.files fd.frame_number fd.image_base64,
    frames := s.frames ++
      [⟨fd.frame_number, fd.frame_number, fd.scroll_position,
        fd.viewport_height, fd.timestamp⟩] }

/-- The error taxonomy raised by the orchestrator: `ValueError("Session not
found")` (line 381) and `ValueError("No frames to stitch")` (line 138). -/
inductive SessionError where
  | sessionNotFound
  | emptySession
deriving DecidableEq

/-- `FrameProcessorService` (lines 350-356): the process-wide registry plus
the uuid freshness counter. -/
structure FrameProcessorService where
  sessions : List (ℕ × CaptureSession)
  nextId : ℕ
deriving DecidableEq

/-- `FrameProcessorService.create_session` (lines 358-363): register a fresh
session under a newly generated id and return the id. -/
def FrameProcessorService.create_session (st : FrameProcessorService) :
    ℕ × FrameProcessorService :=
  (st.nextId,
    ⟨st.sessions ++ [(st.nextId, newCaptureSession st.nextId)], st.nextId + 1⟩)

/-- `FrameProcessorService.add_frame` (lines 365-370): an unknown id does not
raise — the service silently creates a brand-new session (with a fresh id,
rebinding `session_id` at line 368) and stores the frame there. The `Except`
result records that no `SessionError` escapes this method. -/
def FrameProcessorService.add_frame (st : FrameProcessorService) (sid : ℕ)
    (fd : FrameData) : Except SessionError FrameProcessorService :=
  match assocLookup st.sessions sid with
  | some _ =>
      Except.ok { st with sessions := assocUpdate st.sessions sid (fun s => s.add_frame fd) }
  | none =>
      let n := st.create_session
      Except.ok { n.2 with sessions := assocUpdate n.2.sessions n.1 (fun s => s.add_frame fd) }

/-- Stable ascending insertion by frame number (earlier-arrived records stay
first among equal keys), the behaviour of Python's stable `sorted` with
`key=lambda f: f['frame_number']` (line 387). -/
def insertByNumber (f : FrameInfo) : List FrameInfo → List FrameInfo
  | [] => [f]
  | g :: gs =>
      if f.frame_number ≤ g.frame_number then f :: g :: gs
      else g :: insertByNumber f gs

/-- Stable sort of the session's frames by frame number (line 387). -/
def sortFrames : List FrameInfo → List FrameInfo
  | [] => []
  | f :: fs => insertByNumber f (sortFrames fs)

/-- The successful completion payload (lines 401-407); the stitched-image and
tile paths of lines 391-396 are elided, with the sorted stitch input
sequence kept as `frame_paths` (line 388). -/
structure CompletionResult where
  session_id : ℕ
  total_frames : ℕ
  frame_paths : List ℕ
deriving DecidableEq

/-- `FrameProcessorService.complete_session` (lines 372-407). An unknown id
raises `ValueError` (line 381) leaving the state untouched. Otherwise the
session's metadata is assigned (line 384), the frames are sorted (line 387),
and stitching runs: with zero frames `stitch_frames` raises
`ValueError("No frames to stitch")` (lines 137-138), which propagates out of
`complete_session` *before* the `del self.sessions[session_id]` cleanup of
line 399 — the session therefore stays registered. Only on success is the
session deleted from the registry. The pair returns the result (or the
escaping error) together with the post-call service state. -/
def FrameProcessorService.complete_session (st : FrameProcessorService)
    (sid : ℕ) (metadata : ℕ) :
    Except SessionError CompletionResult × FrameProcessorService :=
  match assocLookup st.sessions sid with
  | none => (Except.error SessionError.sessionNotFound, st)
  | some s =>
      let s' : CaptureSession := { s with metadata := metadata }
      let st' : FrameProcessorService :=
        { st with sessions := assocSet st.sessions sid s' }
      match sortFrames s'.frames with
      | [] => (Except.error SessionError.emptySession, st')
      | f :: fs =>
          (Except.ok
            ⟨sid, (f :: fs).length, (f :: fs).map FrameInfo.path⟩,
            { st' with sessions := assocRemove st'.sessions sid })

/-- `FrameProcessorService.get_session_info` (lines 409-419): frame count and
metadata of a live session. -/
def FrameProcessorService.get_session_info (st : FrameProcessorService)
    (sid : ℕ) : Option (ℕ × ℕ) :=
  match assocLookup st.sessions sid with
  | none => none
  | some s => some (s.frames.length, s.metadata)

/-! ## Claims C2, C3, C4 theorems -/

/-- Helper: looking up the key just written by `assocSet` returns the new
value, whether or not the key was present. -/
theorem assocLookup_assocSet {α : Type} (l : List (ℕ × α)) (k : ℕ) (v : α) :
    assocLookup (assocSet l k v) k = some v := by
  induction l with
  | nil => simp [assocSet, assocLookup]
  | cons p rest ih =>
      obtain ⟨k0, v0⟩ := p
      by_cases hk : k0 = k
      · simp [assocSet, hk, assocLookup]
      · simp [assocSet, hk, assocLookup, ih]

/-- Helper: updating a key appended to a list none of whose keys equal it
reaches exactly the appended entry. -/
theorem assocUpdate_append_fresh {α : Type} (l : List (ℕ × α)) (k : ℕ)
    (v : α) (f : α → α) (h : ∀ p ∈ l, p.1 ≠ k) :
    assocUpdate (l ++ [(k, v)]) k f = l ++ [(k, f v)] := by
  induction l with
  | nil => simp [assocUpdate]
  | cons p rest ih =>
      obtain ⟨k0, v0⟩ := p
      have hk0 : k0 ≠ k := h (k0, v0) (List.mem_cons_self _ _)
      simp only [List.cons_append, assocUpdate, hk0, if_false, List.append_eq]
      rw [ih (fun p hp => h p (List.mem_cons_of_mem _ hp))]

/-- Claim C2 (counterexample): on the empty registry, `add_frame` with the
unknown id 7 does not raise `SessionNotFound` — it auto-creates a fresh
session under the new id 0, stores the frame there (both the file and the
metadata record), and afterwards id 7 is still not registered. -/
theorem add_frame_unknown_no_error :
    assocLookup (FrameProcessorService.sessions ⟨[], 0⟩) 7 = none ∧
    FrameProcessorService.add_frame ⟨[], 0⟩ 7 ⟨3, 77, 1, 2, 9⟩ =
      Except.ok ⟨[(0, ⟨0, [⟨3, 3, 1, 2, 9⟩], [(3, 77)], 0⟩)], 1⟩ ∧
    FrameProcessorService.add_frame ⟨[], 0⟩ 7 ⟨3, 77, 1, 2, 9⟩ ≠
      Except.error SessionError.sessionNotFound ∧
    assocLookup [(0, (⟨0, [⟨3, 3, 1, 2, 9⟩], [(3, 77)], 0⟩ : CaptureSession))]
      7 = none := by
  refine ⟨rfl, rfl, ?_, rfl⟩
  intro h
  exact Except.noConfusion h

/-- Claim C2 (amended): `add_frame` on an id absent from the live registry —
never created, or already removed by a successful `complete_session` — does
not fail with `SessionNotFound`. It returns successfully, having registered a
brand-new session under the freshly generated id `nextId` and stored the
frame there; the requested id itself gains no session. The freshness
hypothesis (every registered id is below `nextId`) is the uuid4 model. -/
theorem add_frame_unknown_autocreates (st : FrameProcessorService) (sid : ℕ)
    (fd : FrameData) (hnone : assocLookup st.sessions sid = none)
    (hfresh : ∀ p ∈ st.sessions, p.1 < st.nextId) :
    st.add_frame sid fd =
      Except.ok
        ⟨st.sessions ++ [(st.nextId, (newCaptureSession st.nextId).add_frame fd)],
          st.nextId + 1⟩ := by
  rw [FrameProcessorService.add_frame, hnone]
  simp only [FrameProcessorService.create_session]
  rw [assocUpdate_append_fresh st.sessions st.nextId (newCaptureSession st.nextId)
    (fun s => s.add_frame fd) (fun p hp => Nat.ne_of_lt (hfresh p hp))]

/-- Claim C2 (witness): the amended theorem applied to a registry holding one
completed-and-removed id (5 was never live; only id 0 remains). -/
theorem add_frame_unknown_autocreates_witness :
    assocLookup (FrameProcessorService.sessions ⟨[(0, newCaptureSession 0)], 1⟩) 5 = none ∧
    (∀ p ∈ (FrameProcessorService.sessions ⟨[(0, newCaptureSession 0)], 1⟩), p.1 < 1) ∧
    FrameProcessorService.add_frame ⟨[(0, newCaptureSession 0)], 1⟩ 5 ⟨3, 77, 1, 2, 9⟩ =
      Except.ok
        ⟨[(0, newCaptureSession 0)] ++ [(1, (newCaptureSession 1).add_frame ⟨3, 77, 1, 2, 9⟩)], 2⟩ :=
  ⟨rfl, by decide,
    add_frame_unknown_autocreates ⟨[(0, newCaptureSession 0)], 1⟩ 5
      ⟨3, 77, 1, 2, 9⟩ rfl (by decide)⟩

/-- Claim C3 (counterexample): submitting frame number 5 twice to a fresh
session leaves the session holding *two* frame records with number 5, and the
frame count moves from 1 to 2 — re-submission appends rather than upserting. -/
theorem add_frame_resubmission_duplicates :
    ((newCaptureSession 0).add_frame ⟨5, 10, 0, 0, 0⟩).frames.length = 1 ∧
    (((newCaptureSession 0).add_frame ⟨5, 10, 0, 0, 0⟩).add_frame
        ⟨5, 20, 0, 0, 0⟩).frames.length = 2 ∧
    List.countP (fun i => i.frame_number == 5)
      ((((newCaptureSession 0).add_frame ⟨5, 10, 0, 0, 0⟩).add_frame
        ⟨5, 20, 0, 0, 0⟩).frames) = 2 := by
  refine ⟨rfl, rfl, by decide⟩

/-- Claim C3 (amended): re-submitting a frame number overwrites the stored
image *file* (the path is determined by the number), but appends a second
metadata record: the session ends up holding two frame records with that
number, its frame count grows by two across the two calls (so re-submission
is not a no-op), and the stitched frame sequence would contain that frame
number twice. -/
theorem add_frame_resubmission_appends (s : CaptureSession)
    (fd fd' : FrameData) (hn : fd'.frame_number = fd.frame_number) :
    ((s.add_frame fd).add_frame fd').frames.length = s.frames.length + 2 ∧
    List.countP (fun i => i.frame_number == fd.frame_number)
        ((s.add_frame fd).add_frame fd').frames =
      List.countP (fun i => i.frame_number == fd.frame_number) s.frames + 2 ∧
    assocLookup ((s.add_frame fd).add_frame fd').files fd.frame_number =
      some fd'.image_base64 := by
  refine ⟨?_, ?_, ?_⟩
  · simp [CaptureSession.add_frame]
  · simp [CaptureSession.add_frame, List.countP_append, List.countP_cons, hn]
  · simp only [CaptureSession.add_frame, hn]
    exact assocLookup_assocSet _ _ _

/-- Claim C3 (witness): the amended theorem applied to a session already
holding frame 2, re-submitting frame number 5 with new bytes 20. -/
theorem add_frame_resubmission_appends_witness :
    ((5 : ℕ) = 5) ∧
    ((((newCaptureSession 0).add_frame ⟨2, 1, 0, 0, 0⟩).add_frame
          ⟨5, 10, 0, 0, 0⟩).add_frame ⟨5, 20, 0, 0, 0⟩).frames.length =
        ((newCaptureSession 0).add_frame ⟨2, 1, 0, 0, 0⟩).frames.length + 2 ∧
      List.countP (fun i => i.frame_number == 5)
          ((((newCaptureSession 0).add_frame ⟨2, 1, 0, 0, 0⟩).add_frame
            ⟨5, 10, 0, 0, 0⟩).add_frame ⟨5, 20, 0, 0, 0⟩).frames =
        List.countP (fun i => i.frame_number == 5)
          ((newCaptureSession 0).add_frame ⟨2, 1, 0, 0, 0⟩).frames + 2 ∧
      assocLookup
          ((((newCaptureSession 0).add_frame ⟨2, 1, 0, 0, 0⟩).add_frame
            ⟨5, 10, 0, 0, 0⟩).add_frame ⟨5, 20, 0, 0, 0⟩).files 5 =
        some 20 :=
  ⟨rfl,
    add_frame_resubmission_appends
      ((newCaptureSession 0).add_frame ⟨2, 1, 0, 0, 0⟩)
      ⟨5, 10, 0, 0, 0⟩ ⟨5, 20, 0, 0, 0⟩ rfl⟩

/-- Claim C4 (counterexample): completing a freshly created (zero-frame)
session id 0 raises `EmptySession`, but the session is *not* removed from
the live registry — it remains registered (with its metadata updated to 42)
and still accepts a further `add_frame`, contradicting the claimed
transition to `Closed`/evicted. -/
theorem complete_session_empty_not_closed :
    FrameProcessorService.complete_session ⟨[(0, newCaptureSession 0)], 1⟩ 0 42 =
      (Except.error SessionError.emptySession, ⟨[(0, ⟨0, [], [], 42⟩)], 1⟩) ∧
    assocLookup [(0, (⟨0, [], [], 42⟩ : CaptureSession))] 0 =
      some ⟨0, [], [], 42⟩ ∧
    FrameProcessorService.add_frame ⟨[(0, ⟨0, [], [], 42⟩)], 1⟩ 0
        ⟨1, 9, 0, 0, 0⟩ =
      Except.ok ⟨[(0, ⟨0, [⟨1, 1, 0, 0, 0⟩], [(1, 9)], 42⟩)], 1⟩ := by
  refine ⟨rfl, rfl, rfl⟩

/-- Claim C4 (amended): `complete_session` on a registered session with zero
frames returns the `EmptySession` error, but the failure propagates *before*
the registry cleanup: the session stays in the live registry (with its
metadata already updated), still open to further frames; it is not
transitioned out or evicted. Only successful completion removes it. -/
theorem complete_session_empty_keeps_session (st : FrameProcessorService)
    (sid : ℕ) (m : ℕ) (s : CaptureSession)
    (hs : assocLookup st.sessions sid = some s) (hempty : s.frames = []) :
    st.complete_session sid m =
      (Except.error SessionError.emptySession,
        { st with sessions := assocSet st.sessions sid { s with metadata := m } }) ∧
    assocLookup (assocSet st.sessions sid { s with metadata := m }) sid =
      some { s with metadata := m } := by
  constructor
  · rw [FrameProcessorService.complete_session, hs]
    simp only [hempty, sortFrames]
  · exact assocLookup_assocSet _ _ _

/-- Claim C4 (witness): the amended theorem applied to a registry holding the
empty session id 0. -/
theorem complete_session_empty_keeps_session_witness :
    assocLookup (FrameProcessorService.sessions ⟨[(0, newCaptureSession 0)], 1⟩) 0 =
      some (newCaptureSession 0) ∧
    (newCaptureSession 0).frames = [] ∧
    (FrameProcessorService.complete_session ⟨[(0, newCaptureSession 0)], 1⟩ 0 42 =
      (Except.error SessionError.emptySession,
        ⟨assocSet (FrameProcessorService.sessions ⟨[(0, newCaptureSession 0)], 1⟩) 0
          { newCaptureSession 0 with metadata := 42 }, 1⟩) ∧
    assocLookup (assocSet (FrameProcessorService.sessions ⟨[(0, newCaptureSession 0)], 1⟩) 0
        { newCaptureSession 0 with metadata := 42 }) 0 =
      some { newCaptureSession 0 with metadata := 42 }) :=
  ⟨rfl, rfl,
    complete_session_empty_keeps_session ⟨[(0, newCaptureSession 0)], 1⟩ 0 42
      (newCaptureSession 0) rfl rfl⟩

/-! ## Tile Pyramid Generator: `TileGenerator.generate_tiles` (lines 254-347) -/

/-- `self.tile_size` (line 258). -/
def TILE_SIZE : ℕ := 256

/-- `int(np.ceil(w / 256))`, the tile-grid size of lines 295-296; exact for
the integer inputs involved. -/
def ceilDivTS (w : ℕ) : ℕ := (w + TILE_SIZE - 1) / TILE_SIZE

/-- `num_levels = int(np.ceil(np.log2(max_dimension / self.tile_size))) + 1`
(lines 276-277). `Int.clog 2 q` is exactly `⌈log₂ q⌉` for a rational `q`; the
float evaluation agrees (division by 256 is exact in binary floating point
and `np.ceil ∘ np.log2` lands on the same integer on these ranges). -/
def numLevels (width height : ℕ) : ℤ :=
  Int.clog 2 (((max width height : ℕ) : ℚ) / (TILE_SIZE : ℚ)) + 1

/-- One record of `manifest['levels']` (lines 298-304). -/
structure LevelInfo where
  level : ℕ
  width : ℕ
  height : ℕ
  tiles_x : ℕ
  tiles_y : ℕ
deriving DecidableEq

/-- The manifest of lines 279-286 (levels filled by the loop). -/
structure TileManifest where
  width : ℕ
  height : ℕ
  tile_size : ℕ
  overlap : ℕ
  format : String
  levels : List LevelInfo
deriving DecidableEq

/-- The level loop of lines 290-324 counting down from `num_levels - 1` to 0
(`n` is the number of levels still to emit): record the current buffer's
dimensions and tile grid, then halve both dimensions (`max(1, d // 2)`,
lines 321-324) for the next coarser level. -/
def levelList : ℕ → ℕ → ℕ → List LevelInfo
  | 0, _, _ => []
  | n + 1, w, h =>
      ⟨n, w, h, ceilDivTS w, ceilDivTS h⟩ ::
        levelList n (max 1 (w / 2)) (max 1 (h / 2))

/-- The `(level, column, row)` keys of the tile files written for one level
by the loops of lines 307-316. -/
def levelTileKeys (li : LevelInfo) : List (ℕ × ℕ × ℕ) :=
  ((List.range li.tiles_y).map (fun ty =>
    (List.range li.tiles_x).map (fun tx => (li.level, tx, ty)))).flatten

/-- All tile-file keys written by `generate_tiles` for an image of the given
dimensions: the loop runs `max(num_levels, 0)` times (Python's
`range(num_levels - 1, -1, -1)` is empty for `num_levels ≤ 0`). -/
def tileKeys (width height : ℕ) : List (ℕ × ℕ × ℕ) :=
  ((levelList (numLevels width height).toNat width height).map
    levelTileKeys).flatten

/-- The manifest returned by `generate_tiles` (lines 279-318, 347). -/
def generate_tiles_manifest (img : Img) : TileManifest :=
  ⟨img.w, img.h, TILE_SIZE, 0, "png",
    levelList (numLevels img.w img.h).toNat img.w img.h⟩

/-- One tile of the slicing loop (lines 307-316): tile `(tx, ty)` of the
current buffer is `img[y1:y2, x1:x2]` with `x1 = tx*256`,
`x2 = min(x1 + 256, w)` — edge tiles are smaller, not padded. At the first
loop iteration (level `num_levels - 1`) the buffer is the composed image
itself. -/
def tileAt (img : Img) (tx ty : ℕ) : Img :=
  ⟨min (ty * TILE_SIZE + TILE_SIZE) img.h - ty * TILE_SIZE,
   min (tx * TILE_SIZE + TILE_SIZE) img.w - tx * TILE_SIZE,
   fun r c => img.pix (ty * TILE_SIZE + r) (tx * TILE_SIZE + c)⟩

/-- Reassembly of a sliced buffer from its tiles in (column, row) grid order,
following the spec's words: the pixel at `(y, x)` is read from tile
`(x / 256, y / 256)` at local offset `(y % 256, x % 256)`. -/
def reassembleTiles (img : Img) (y x : ℕ) : ℕ :=
  (tileAt img (x / TILE_SIZE) (y / TILE_SIZE)).pix (y % TILE_SIZE) (x % TILE_SIZE)

/-- Claim C8: when the pyramid has at least one level, the finest level
(index `num_levels - 1`) is the composed image at full resolution with a
`ceil(W/256) × ceil(H/256)` tile grid, every in-range pixel's tile index lies
in that grid, and reassembling the tiles reproduces the composed image
pixel-for-pixel — the unpadded slicing is lossless. -/
theorem tile_roundtrip (img : Img) (y x : ℕ)
    (hlev : 1 ≤ numLevels img.w img.h) (hy : y < img.h) (hx : x < img.w) :
    (generate_tiles_manifest img).levels.head? =
      some ⟨(numLevels img.w img.h).toNat - 1, img.w, img.h,
        ceilDivTS img.w, ceilDivTS img.h⟩ ∧
    (x / TILE_SIZE < ceilDivTS img.w ∧ y / TILE_SIZE < ceilDivTS img.h) ∧
    reassembleTiles img y x = img.pix y x := by
  refine ⟨?_, ⟨?_, ?_⟩, ?_⟩
  · have h1 : 1 ≤ (numLevels img.w img.h).toNat := by omega
    obtain ⟨k, hk⟩ : ∃ k, (numLevels img.w img.h).toNat = k + 1 :=
      ⟨(numLevels img.w img.h).toNat - 1, by omega⟩
    simp only [generate_tiles_manifest, hk, levelList, List.head?,
      Nat.add_sub_cancel]
  · simp only [ceilDivTS, TILE_SIZE] at *
    omega
  · simp only [ceilDivTS, TILE_SIZE] at *
    omega
  · unfold reassembleTiles tileAt
    simp only []
    rw [Nat.div_add_mod', Nat.div_add_mod']

/-- Claim C8 (witness): a 300×300 composed image (two levels), pixel (257, 5). -/
theorem tile_roundtrip_witness :
    (1 ≤ numLevels 300 300 ∧ (257 : ℕ) < 300 ∧ (5 : ℕ) < 300) ∧
    reassembleTiles ⟨300, 300, fun r c => r * 1000 + c⟩ 257 5 =
      (fun r c => r * 1000 + c : ℕ → ℕ → ℕ) 257 5 := by
  have hlev : 1 ≤ numLevels 300 300 := by
    unfold numLevels TILE_SIZE
    have hmax : max (300 : ℕ) 300 = 300 := by norm_num
    rw [hmax]
    have h1 : (1 : ℚ) ≤ ((300 : ℕ) : ℚ) / ((256 : ℕ) : ℚ) := by
      rw [le_div_iff₀ (by norm_num)]
      norm_num
    rw [Int.clog_of_one_le_right _ h1]
    omega
  exact ⟨⟨hlev, by norm_num, by norm_num⟩,
    (tile_roundtrip ⟨300, 300, fun r c => r * 1000 + c⟩ 257 5 hlev
      (by norm_num) (by norm_num)).2.2⟩

/-- Claim C9: for a 4000×100 composed image with tile size 256 the generator
computes `num_levels = ceil(log2(4000/256)) + 1 = ceil(3.97) + 1 = 5`. -/
theorem num_levels_4000x100 : numLevels 4000 100 = 5 := by
  unfold numLevels TILE_SIZE
  have hmax : max (4000 : ℕ) 100 = 4000 := by norm_num
  rw [hmax]
  have h1 : (1 : ℚ) ≤ ((4000 : ℕ) : ℚ) / ((256 : ℕ) : ℚ) := by
    rw [le_div_iff₀ (by norm_num)]
    norm_num
  rw [Int.clog_of_one_le_right _ h1]
  have hceil : ⌈((4000 : ℕ) : ℚ) / ((256 : ℕ) : ℚ)⌉₊ = 16 := by
    rw [Nat.ceil_eq_iff (by norm_num)]
    constructor
    · rw [lt_div_iff₀ (by norm_num)]
      norm_num
    · rw [div_le_iff₀ (by norm_num)]
      norm_num
  rw [hceil]
  have hclog : Nat.clog 2 16 = 4 := by
    have h16 : (16 : ℕ) = 2 ^ 4 := by norm_num
    rw [h16, Nat.clog_pow 2 4 (by norm_num)]
  rw [hclog]
  norm_num

/-- Claim C10: for a composed image whose largest dimension is positive but
at most 128 = tile_size/2, `num_levels` evaluates to 0 or less, the level
loop runs zero times, no tile files are written, and the manifest's level
list is empty while it still reports the full image width and height. -/
theorem generate_tiles_small_image (img : Img)
    (hpos : 0 < max img.w img.h) (hsmall : max img.w img.h ≤ 128) :
    numLevels img.w img.h ≤ 0 ∧
    (generate_tiles_manifest img).levels = [] ∧
    tileKeys img.w img.h = [] ∧
    (generate_tiles_manifest img).width = img.w ∧
    (generate_tiles_manifest img).height = img.h := by
  have hq0 : (0 : ℚ) < ((max img.w img.h : ℕ) : ℚ) := by
    exact_mod_cast hpos
  have hq1 : ((max img.w img.h : ℕ) : ℚ) / ((256 : ℕ) : ℚ) ≤ 1 := by
    rw [div_le_one (by norm_num)]
    have hle : max img.w img.h ≤ 256 := by omega
    exact_mod_cast hle
  have hlev : numLevels img.w img.h ≤ 0 := by
    unfold numLevels TILE_SIZE
    rw [Int.clog_of_right_le_one _ hq1]
    have hinv : (((max img.w img.h : ℕ) : ℚ) / ((256 : ℕ) : ℚ))⁻¹ =
        ((256 : ℕ) : ℚ) / ((max img.w img.h : ℕ) : ℚ) := by
      rw [inv_div]
    have hfloor : 2 ≤ ⌊(((max img.w img.h : ℕ) : ℚ) / ((256 : ℕ) : ℚ))⁻¹⌋₊ := by
      rw [hinv]
      apply Nat.le_floor
      rw [le_div_iff₀ hq0]
      have hle : 2 * max img.w img.h ≤ 256 := by omega
      calc ((2 : ℕ) : ℚ) * ((max img.w img.h : ℕ) : ℚ) =
            (((2 * max img.w img.h : ℕ)) : ℚ) := by push_cast; ring
        _ ≤ ((256 : ℕ) : ℚ) := by exact_mod_cast hle
    have hlog : 0 < Nat.log 2 ⌊(((max img.w img.h : ℕ) : ℚ) / ((256 : ℕ) : ℚ))⁻¹⌋₊ :=
      Nat.log_pos (by norm_num) hfloor
    omega
  have htn : (numLevels img.w img.h).toNat = 0 := by omega
  refine ⟨hlev, ?_, ?_, rfl, rfl⟩
  · simp only [generate_tiles_manifest, htn, levelList]
  · simp only [tileKeys, htn, levelList, List.map_nil, List.flatten_nil]

/-- Claim C10 (witness): a 100-wide, 50-tall composed image. -/
theorem generate_tiles_small_image_witness :
    (0 < max (100 : ℕ) 50 ∧ max (100 : ℕ) 50 ≤ 128) ∧
    (numLevels 100 50 ≤ 0 ∧
      (generate_tiles_manifest ⟨50, 100, fun _ _ => 7⟩).levels = [] ∧
      tileKeys 100 50 = [] ∧
      (generate_tiles_manifest ⟨50, 100, fun _ _ => 7⟩).width = 100 ∧
      (generate_tiles_manifest ⟨50, 100, fun _ _ => 7⟩).height = 50) :=
  ⟨⟨by norm_num, by norm_num⟩,
    generate_tiles_small_image ⟨50, 100, fun _ _ => 7⟩ (by norm_num) (by norm_num)⟩
